import Mathlib

set_option maxRecDepth 8000

/-!
# Verification of the home-energy-monitoring real-time data channel

Shallow embedding of the two core components of the dashboard:

* the **Stream Reducer** (`handleWebSocketMessage` in
  `src/components/dashboard/SinglePhaseDashboard.tsx`), which folds inbound
  websocket messages into the snapshot / time-series / summary tables, and
* the **Connection Manager** (the `useWebSocket` hook), which owns the socket
  lifecycle, the heartbeat, the exponential-backoff reconnect policy, the
  `send` guard and the manual `resetConnection` entry point.

Modelling conventions:

* JS numbers that are only stored and compared (never computed with) are
  embedded as `Int`; epoch-millisecond timestamps as `Nat`.
* A JS `Record<string, T>` held in component state is embedded as a total
  function `String → Option T` (respectively `String → List T` for the
  time-series table, whose code reads a missing key as `[]` via `|| []`).
  A record *inside a message* is embedded as its entry list
  `List (String × T)`, the order being the iteration order of
  `Object.entries`; keys of a JS object are pairwise distinct.
* The Connection Manager's mutable refs and timer handles become fields of an
  explicit `ManagerState`; each event handler or exposed callback becomes a
  total function `ManagerState → ManagerState`.  Invocations of the
  `onMaxRetriesExceeded` callback, messages forwarded to `onMessage`, and
  frames written to the socket are recorded in log fields of the state so
  that theorems can count them.
* Events are single-threaded (one browser event loop); a transport event on a
  socket that is already closed, or a callback invoked after unmount, is
  embedded as the identity on the state.  Inbound frames arrive already
  parsed (a frame that fails `JSON.parse` is logged and dropped by the code
  and never reaches any of the logic modelled here).
-/

/-! ## Data model (src/types/meter.ts) -/

/-- One point of a per-device time series (`TimeseriesPoint` in
`src/types/meter.ts`).  The reducer only ever compares `timestamp` fields and
stores points whole. -/
structure TimeseriesPoint where
  timestamp : Nat
  voltage : Int
  current : Int
  active_power : Int
  power_factor : Int
  deriving DecidableEq, Repr

/-- Latest instantaneous reading for one device (`RealtimeData` in
`src/types/meter.ts`). -/
structure RealtimeData where
  voltage : Int
  current : Int
  active_power : Int
  apparent_power : Int
  reactive_power : Int
  power_factor : Int
  frequency : Int
  deriving DecidableEq, Repr

/-- Listing row for one device (`MeterSummary` in `src/types/meter.ts`);
replaced wholesale per inbound summary batch, so its fields are irrelevant to
every property proved here beyond identity. -/
structure MeterSummary where
  meter_name : String
  active_power : Int
  deriving DecidableEq, Repr

/-! ## Inbound and outbound message types (`@/types/websocket`, §6 of the
design document) -/

/-- Payload of a `full_update` message: any subset of a summary batch, a
snapshot batch and a one-point-per-device time-series batch may be present. -/
structure FullUpdateData where
  summary : Option (List MeterSummary)
  realtime : Option (List (String × RealtimeData))
  timeseries_point : Option (List (String × TimeseriesPoint))
  deriving DecidableEq, Repr

/-- Inbound application message (`WebSocketMessage`). -/
inductive WebSocketMessage where
  | full_update (u : FullUpdateData)
  | initial_timeseries (meter_name : String) (data : List TimeseriesPoint)
  | pong (timestamp : Nat)
  deriving DecidableEq, Repr

/-- Outbound control message (`WebSocketOutgoingMessage`). -/
inductive WebSocketOutgoingMessage where
  | request_update
  | request_timeseries (meter_name : String)
  | ping (timestamp : Nat)
  deriving DecidableEq, Repr

/-! ## Stream Reducer (`Dashboard` component, SinglePhaseDashboard.tsx) -/

/-- `const MAX_TIMESERIES_POINTS = 450` (line 484). -/
def MAX_TIMESERIES_POINTS : Nat := 450

/-- The three derived tables held in the `Dashboard` component's state. -/
structure DashboardState where
  readings : List MeterSummary
  realtimeData : String → Option RealtimeData
  timeseriesData : String → List TimeseriesPoint

/-- The state before any message arrives: empty tables. -/
def initialDashboardState : DashboardState where
  readings := []
  realtimeData := fun _ => none
  timeseriesData := fun _ => []

/-- JS `arr.slice(-n)`: the last `n` elements (the whole array when it is
shorter than `n`). -/
def sliceLast (n : Nat) (l : List α) : List α :=
  l.drop (l.length - n)

/-- The body of the `timeseries_point` loop for one device (lines 515-526):
drop the point if its timestamp equals the last stored point's timestamp,
otherwise append and keep only the last `MAX_TIMESERIES_POINTS` points. -/
def appendPoint (existing : List TimeseriesPoint) (point : TimeseriesPoint) :
    List TimeseriesPoint :=
  match existing.getLast? with
  | none => sliceLast MAX_TIMESERIES_POINTS (existing ++ [point])
  | some lastPoint =>
      if lastPoint.timestamp = point.timestamp then existing
      else sliceLast MAX_TIMESERIES_POINTS (existing ++ [point])

/-- `Object.entries(data.timeseries_point).forEach(...)`: fold the per-device
update over the entry list of the message's record. -/
def applyTimeseriesBatch (tbl : String → List TimeseriesPoint)
    (entries : List (String × TimeseriesPoint)) : String → List TimeseriesPoint :=
  entries.foldl
    (fun t e => fun k => if k = e.1 then appendPoint (t e.1) e.2 else t k) tbl

/-- JS object spread `{...prev, ...batch}` where `batch` is given by its entry
list: later entries override, keys absent from the batch fall through to
`prev`. -/
def spreadRecord (prev : String → Option α) (entries : List (String × α)) :
    String → Option α :=
  entries.foldl (fun acc e => fun k => if k = e.1 then some e.2 else acc k) prev

/-- `handleWebSocketMessage` (lines 499-540).  Note two truthiness artifacts
of the source: a `pong` (or any unrecognized type) falls through both
branches and is a no-op, and the `initial_timeseries` branch is guarded by
`if (data.meter_name && data.data)`, so a message whose `meter_name` is the
empty string (falsy in JS) is ignored. -/
def handleWebSocketMessage (st : DashboardState) (data : WebSocketMessage) :
    DashboardState :=
  match data with
  | .full_update u =>
      let st1 := match u.summary with
        | some s => { st with readings := s }
        | none => st
      let st2 := match u.realtime with
        | some r => { st1 with realtimeData := spreadRecord st1.realtimeData r }
        | none => st1
      match u.timeseries_point with
        | some ts =>
            { st2 with timeseriesData := applyTimeseriesBatch st2.timeseriesData ts }
        | none => st2
  | .initial_timeseries meter_name data =>
      if meter_name = "" then st
      else
        { st with
          timeseriesData := fun k =>
            if k = meter_name then data else st.timeseriesData k }
  | .pong _ => st

/-- Fold a whole inbound sequence through the reducer. -/
def handleMessages (st : DashboardState) (msgs : List WebSocketMessage) :
    DashboardState :=
  msgs.foldl handleWebSocketMessage st

/-! ## Connection Manager (`useWebSocket` hook, src/hooks/useWebSocket.ts) -/

/-- `const BASE_RECONNECT_DELAY_MS = 1000`. -/
def BASE_RECONNECT_DELAY_MS : Nat := 1000

/-- `const MAX_RECONNECT_DELAY_MS = 30000`. -/
def MAX_RECONNECT_DELAY_MS : Nat := 30000

/-- `const MAX_RECONNECT_ATTEMPTS = 10`. -/
def MAX_RECONNECT_ATTEMPTS : Nat := 10

/-- `getReconnectDelay` (lines 140-146): exponential backoff capped at
`MAX_RECONNECT_DELAY_MS`, as a pure function of the current attempt
counter. -/
def getReconnectDelay (reconnectAttempts : Nat) : Nat :=
  min (BASE_RECONNECT_DELAY_MS * 2 ^ reconnectAttempts) MAX_RECONNECT_DELAY_MS

/-- `WebSocket.readyState` of the transport held in `wsRef`. -/
inductive WsReadyState where
  | connecting
  | open
  | closing
  | closed
  deriving DecidableEq, Repr

/-- The mutable refs and React state of the `useWebSocket` hook, plus three
log fields recording the externally observable effects (messages forwarded
to `onMessage`, frames written to the socket, invocations of
`onMaxRetriesExceeded`). -/
structure ManagerState where
  mounted : Bool
  ws : Option WsReadyState
  reconnectTimer : Bool
  heartbeatInterval : Bool
  heartbeatTimeout : Bool
  reconnectAttempts : Nat
  isConnected : Bool
  forwarded : List WebSocketMessage
  sent : List WebSocketOutgoingMessage
  exhaustedCount : Nat
  deriving DecidableEq, Repr

/-- State of a freshly mounted hook, before `connect()` runs. -/
def initialManagerState : ManagerState where
  mounted := true
  ws := none
  reconnectTimer := false
  heartbeatInterval := false
  heartbeatTimeout := false
  reconnectAttempts := 0
  isConnected := false
  forwarded := []
  sent := []
  exhaustedCount := 0

/-- `connect` (lines 148-225, synchronous part): refuse while a transport is
already CONNECTING or OPEN, otherwise install a fresh transport in the
CONNECTING state.  The event handlers attached inside `connect` are modelled
separately below. -/
def connect (st : ManagerState) : ManagerState :=
  if st.mounted = false then st
  else
    match st.ws with
    | some .connecting => st
    | some .open => st
    | _ => { st with ws := some .connecting }

/-- The `onopen` handler: mark connected, reset the attempt counter, start
the heartbeat (`startHeartbeat` first clears both heartbeat timers, then arms
the ping interval).  Fires only for a transport that was CONNECTING. -/
def onOpenEvent (st : ManagerState) : ManagerState :=
  if st.mounted = false then st
  else if st.ws = some .connecting then
    { st with
      ws := some .open
      isConnected := true
      reconnectAttempts := 0
      heartbeatInterval := true
      heartbeatTimeout := false }
  else st

/-- The `onmessage` handler (lines 179-197): a `pong` clears the pending
ping-timeout and is not forwarded; every other (well-parsed) message is
forwarded to `onMessage`.  Fires only while the transport is OPEN. -/
def onMessageEvent (st : ManagerState) (data : WebSocketMessage) : ManagerState :=
  if st.mounted = false then st
  else if st.ws = some .open then
    match data with
    | .pong _ => { st with heartbeatTimeout := false }
    | _ => { st with forwarded := st.forwarded ++ [data] }
  else st

/-- Fold a sequence of transport frames through the `onmessage` handler. -/
def onMessageEvents (st : ManagerState) (msgs : List WebSocketMessage) :
    ManagerState :=
  msgs.foldl onMessageEvent st

/-- The `onclose` handler (lines 206-224): stop the heartbeat, mark
disconnected; then either report exhaustion (when the attempt counter has
reached `MAX_RECONNECT_ATTEMPTS`) or increment the counter and schedule a
reconnect after `getReconnectDelay`.  Fires only for a live transport. -/
def onCloseEvent (st : ManagerState) : ManagerState :=
  if st.mounted = false then st
  else
    match st.ws with
    | none => st
    | some .closed => st
    | some _ =>
        let st1 := { st with
          ws := some .closed
          isConnected := false
          heartbeatInterval := false
          heartbeatTimeout := false }
        if MAX_RECONNECT_ATTEMPTS ≤ st1.reconnectAttempts then
          { st1 with exhaustedCount := st1.exhaustedCount + 1 }
        else
          { st1 with
            reconnectAttempts := st1.reconnectAttempts + 1
            reconnectTimer := true }

/-- Expiry of the scheduled reconnect delay: run `connect` again. -/
def reconnectTimerFire (st : ManagerState) : ManagerState :=
  if st.reconnectTimer then connect { st with reconnectTimer := false } else st

/-- `disconnect` (lines 227-243): stop the heartbeat, cancel any scheduled
reconnect, close a CONNECTING/OPEN transport and drop the handle.  The
attempt counter and the connected flag are not touched. -/
def disconnect (st : ManagerState) : ManagerState :=
  { st with
    heartbeatInterval := false
    heartbeatTimeout := false
    reconnectTimer := false
    ws := none }

/-- `send` (lines 245-249): write the frame only when a transport exists and
is OPEN; otherwise do nothing at all. -/
def send (st : ManagerState) (message : WebSocketOutgoingMessage) : ManagerState :=
  if st.ws = some .open then { st with sent := st.sent ++ [message] }
  else st

/-- `resetConnection` (lines 251-257): zero the attempt counter, then
`disconnect()`, then `connect()`. -/
def resetConnection (st : ManagerState) : ManagerState :=
  if st.mounted = false then st
  else connect (disconnect { st with reconnectAttempts := 0 })

/-- One failed connection attempt: the in-flight transport closes, and the
reconnect delay (when one was scheduled) then expires. -/
def attemptFail (st : ManagerState) : ManagerState :=
  reconnectTimerFire (onCloseEvent st)

/-- The run in which the hook mounts, connects, and every attempt fails:
state after `n` transport failures. -/
def failRun (n : Nat) : ManagerState :=
  attemptFail^[n] (connect initialManagerState)

/-! ## Shared helper definitions for concrete scenarios -/

/-- Device name used in concrete scenarios. -/
def devA : String := "A"

/-- Second device name used in concrete scenarios. -/
def devB : String := "B"

/-- The empty device name (falsy as a JS string). -/
def emptyName : String := ""

/-- A concrete time-series point with the given timestamp. -/
def mkPt (t : Nat) : TimeseriesPoint :=
  { timestamp := t, voltage := 0, current := 0, active_power := 0, power_factor := 0 }

/-- A concrete snapshot whose fields are all `v`, to tell snapshots apart. -/
def mkRD (v : Int) : RealtimeData :=
  { voltage := v, current := v, active_power := v, apparent_power := v
    reactive_power := v, power_factor := v, frequency := v }

/-- A `full_update` carrying exactly one time-series point for one device. -/
def singlePointMsg (d : String) (p : TimeseriesPoint) : WebSocketMessage :=
  .full_update { summary := none, realtime := none, timeseries_point := some [(d, p)] }

/-- `true` for every inbound message that is not a `pong`. -/
def notPong : WebSocketMessage → Bool
  | .pong _ => false
  | _ => true

/-! ## Helper lemmas: `sliceLast` -/

theorem sliceLast_length (n : Nat) (l : List α) :
    (sliceLast n l).length = min l.length n := by
  rw [sliceLast, List.length_drop]
  rcases le_or_lt l.length n with h | h
  · rw [min_eq_left h]
    omega
  · rw [min_eq_right (le_of_lt h)]
    omega

theorem sliceLast_of_length_le (n : Nat) (l : List α) (h : l.length ≤ n) :
    sliceLast n l = l := by
  have h0 : l.length - n = 0 := by omega
  simp [sliceLast, h0]

theorem sliceLast_suffix (n : Nat) (l : List α) : sliceLast n l <:+ l :=
  List.drop_suffix _ _

theorem sliceLast_append_single (n : Nat) (l : List α) (a : α) (hn : 0 < n) :
    sliceLast n (l ++ [a]) = l.drop (l.length + 1 - n) ++ [a] := by
  have h : l.length + 1 - n ≤ l.length := by omega
  simp only [sliceLast, List.length_append, List.length_cons, List.length_nil]
  rw [List.drop_append_of_le_length h]

theorem sliceLast_absorb (n : Nat) (a b : List α) :
    sliceLast n (sliceLast n a ++ b) = sliceLast n (a ++ b) := by
  rcases le_or_lt a.length n with h | h
  · rw [sliceLast_of_length_le n a h]
  · have h1 : a.length - n ≤ a.length := Nat.sub_le _ _
    simp only [sliceLast, List.length_append, List.length_drop]
    rw [← List.drop_append_of_le_length h1, List.drop_drop]
    congr 1
    omega

/-! ## Helper lemmas: `appendPoint` -/

theorem appendPoint_of_getLast?_none {s : List TimeseriesPoint} {p : TimeseriesPoint}
    (h : s.getLast? = none) :
    appendPoint s p = sliceLast MAX_TIMESERIES_POINTS (s ++ [p]) := by
  unfold appendPoint
  rw [h]

theorem appendPoint_of_getLast?_some {s : List TimeseriesPoint} {p lp : TimeseriesPoint}
    (h : s.getLast? = some lp) :
    appendPoint s p =
      if lp.timestamp = p.timestamp then s
      else sliceLast MAX_TIMESERIES_POINTS (s ++ [p]) := by
  unfold appendPoint
  rw [h]

theorem appendPoint_of_empty (p : TimeseriesPoint) : appendPoint [] p = [p] := by
  have h0 : ([] : List TimeseriesPoint).getLast? = none := rfl
  rw [appendPoint_of_getLast?_none h0, List.nil_append,
    sliceLast_of_length_le MAX_TIMESERIES_POINTS [p] (by norm_num [MAX_TIMESERIES_POINTS])]

theorem appendPoint_length_le (s : List TimeseriesPoint) (p : TimeseriesPoint)
    (hs : s.length ≤ MAX_TIMESERIES_POINTS) :
    (appendPoint s p).length ≤ MAX_TIMESERIES_POINTS := by
  cases hL : s.getLast? with
  | none =>
      rw [appendPoint_of_getLast?_none hL, sliceLast_length]
      exact min_le_right _ _
  | some lp =>
      rw [appendPoint_of_getLast?_some hL]
      by_cases hts : lp.timestamp = p.timestamp
      · rwa [if_pos hts]
      · rw [if_neg hts, sliceLast_length]
        exact min_le_right _ _

theorem appendPoint_getLast?_of_ne (s : List TimeseriesPoint) (p : TimeseriesPoint)
    (h : ∀ q ∈ s.getLast?, q.timestamp ≠ p.timestamp) :
    (appendPoint s p).getLast? = some p := by
  have hslice : ∀ (l : List TimeseriesPoint) (a : TimeseriesPoint),
      sliceLast MAX_TIMESERIES_POINTS (l ++ [a]) =
        l.drop (l.length + 1 - MAX_TIMESERIES_POINTS) ++ [a] :=
    fun l a => sliceLast_append_single _ l a (by decide)
  cases hL : s.getLast? with
  | none =>
      rw [appendPoint_of_getLast?_none hL, hslice]
      exact List.getLast?_concat _
  | some lp =>
      rw [appendPoint_of_getLast?_some hL, if_neg (h lp hL), hslice]
      exact List.getLast?_concat _

/-- Applying the same point twice in a row is the same as applying it once:
after a genuine append the point becomes the stored last point, so the second
copy is dropped by the timestamp-equality check; after a drop the state is
unchanged, so the second copy is dropped for the same reason. -/
theorem appendPoint_idem (s : List TimeseriesPoint) (p : TimeseriesPoint) :
    appendPoint (appendPoint s p) p = appendPoint s p := by
  cases hL : s.getLast? with
  | none =>
      have hs : s = [] := List.getLast?_eq_none_iff.mp hL
      subst hs
      have hb : ([p] : List TimeseriesPoint).getLast? = some p := rfl
      rw [appendPoint_of_empty, appendPoint_of_getLast?_some hb, if_pos rfl]
  | some lp =>
      by_cases hts : lp.timestamp = p.timestamp
      · have h1 : appendPoint s p = s := by
          rw [appendPoint_of_getLast?_some hL, if_pos hts]
        rw [h1, h1]
      · have h2 : (appendPoint s p).getLast? = some p := by
          apply appendPoint_getLast?_of_ne
          intro q hq
          rw [hL] at hq
          cases hq
          exact hts
        rw [appendPoint_of_getLast?_some h2, if_pos rfl]

/-! ## Claim C2: reconnect backoff -/

/-- Claim C2: for every attempt, the reconnect delay equals
`min (1000 * 2 ^ attempt) 30000`; the delay is non-decreasing in the attempt
number, never exceeds 30000, and equals 30000 for every attempt at least 9. -/
theorem backoff_delay_correct :
    (∀ a : Nat, getReconnectDelay a = min (1000 * 2 ^ a) 30000) ∧
    (∀ a b : Nat, a ≤ b → getReconnectDelay a ≤ getReconnectDelay b) ∧
    (∀ a : Nat, getReconnectDelay a ≤ 30000) ∧
    (∀ a : Nat, 9 ≤ a → getReconnectDelay a = 30000) := by
  refine ⟨fun a => rfl, ?_, ?_, ?_⟩
  · intro a b h
    exact min_le_min
      (Nat.mul_le_mul_left _ (Nat.pow_le_pow_right (by norm_num) h)) le_rfl
  · intro a
    exact min_le_right _ _
  · intro a h
    have hcap : (30000 : Nat) ≤ 1000 * 2 ^ a := by
      calc (30000 : Nat) ≤ 1000 * 2 ^ 9 := by norm_num
        _ ≤ 1000 * 2 ^ a :=
          Nat.mul_le_mul_left _ (Nat.pow_le_pow_right (by norm_num) h)
    exact min_eq_right hcap

/-- Witness for C2 at concrete attempts 3, 2 ≤ 7 and 12. -/
theorem backoff_delay_correct_witness :
    getReconnectDelay 3 = min (1000 * 2 ^ 3) 30000 ∧
    getReconnectDelay 2 ≤ getReconnectDelay 7 ∧
    getReconnectDelay 12 = 30000 :=
  ⟨backoff_delay_correct.1 3,
   backoff_delay_correct.2.1 2 7 (by norm_num),
   backoff_delay_correct.2.2.2 12 (by norm_num)⟩

/-! ## Claim C10: `send` while not OPEN is a silent no-op -/

/-- Claim C10: invoking `send` while the transport is not OPEN (no transport
at all, or one that is CONNECTING, CLOSING or CLOSED) changes nothing: the
frame is not written to the socket, nothing is buffered anywhere, and the
whole manager state — the `sent` log included — is exactly as before.  (`send`
is a total function, so no error is raised either.) -/
theorem send_while_not_open_noop (st : ManagerState) (m : WebSocketOutgoingMessage)
    (h : st.ws ≠ some WsReadyState.open) :
    send st m = st := by
  unfold send
  rw [if_neg h]

/-- Witness for C10: `send` on the freshly mounted state (no transport). -/
theorem send_while_not_open_noop_witness :
    initialManagerState.ws ≠ some WsReadyState.open ∧
    send initialManagerState WebSocketOutgoingMessage.request_update =
      initialManagerState :=
  ⟨by decide, send_while_not_open_noop initialManagerState
    WebSocketOutgoingMessage.request_update (by decide)⟩

/-! ## Claim C9: manual reset is stop-then-zero-then-start -/

/-- Claim C9: from every state of a mounted manager — mid-backoff with a
reconnect timer pending, mid-attempt with a CONNECTING transport, or any
other — `resetConnection` equals `disconnect` (stop: cancel all timers, drop
any live transport) followed by zeroing the attempt counter followed by
`connect` (start); afterwards exactly one fresh connection attempt is in
flight (a CONNECTING transport, no scheduled reconnect, no heartbeat timers)
and the attempt counter is 0. -/
theorem reset_equiv_stop_zero_start (st : ManagerState) (h : st.mounted = true) :
    resetConnection st = connect { disconnect st with reconnectAttempts := 0 } ∧
    (resetConnection st).reconnectAttempts = 0 ∧
    (resetConnection st).ws = some WsReadyState.connecting ∧
    (resetConnection st).reconnectTimer = false ∧
    (resetConnection st).heartbeatInterval = false ∧
    (resetConnection st).heartbeatTimeout = false := by
  have hr : resetConnection st = connect { disconnect st with reconnectAttempts := 0 } := by
    unfold resetConnection
    simp [h, disconnect]
  refine ⟨hr, ?_, ?_, ?_, ?_, ?_⟩ <;>
    · rw [hr]
      unfold connect disconnect
      simp [h]

/-- Witness for C9 at a concrete mid-backoff state (reconnect timer pending,
attempt counter 7). -/
theorem reset_equiv_stop_zero_start_witness :
    ({ initialManagerState with
        reconnectTimer := true, reconnectAttempts := 7 } : ManagerState).mounted = true ∧
    (resetConnection { initialManagerState with
        reconnectTimer := true, reconnectAttempts := 7 }).reconnectAttempts = 0 ∧
    (resetConnection { initialManagerState with
        reconnectTimer := true, reconnectAttempts := 7 }).ws =
      some WsReadyState.connecting :=
  ⟨rfl,
   (reset_equiv_stop_zero_start _ rfl).2.1,
   (reset_equiv_stop_zero_start _ rfl).2.2.1⟩

/-! ## Claim C4: pong interception -/

theorem onMessageEvent_mounted (st : ManagerState) (m : WebSocketMessage) :
    (onMessageEvent st m).mounted = st.mounted := by
  unfold onMessageEvent
  split
  · rfl
  · split
    · cases m <;> rfl
    · rfl

theorem onMessageEvent_ws (st : ManagerState) (m : WebSocketMessage) :
    (onMessageEvent st m).ws = st.ws := by
  unfold onMessageEvent
  split
  · rfl
  · split
    · cases m <;> rfl
    · rfl

theorem onMessageEvent_forwarded (st : ManagerState) (m : WebSocketMessage)
    (hm : st.mounted = true) (hw : st.ws = some WsReadyState.open) :
    (onMessageEvent st m).forwarded =
      st.forwarded ++ if notPong m then [m] else [] := by
  cases m <;> simp [onMessageEvent, hm, hw, notPong]

theorem onMessageEvents_forwarded (msgs : List WebSocketMessage) :
    ∀ st : ManagerState, st.mounted = true → st.ws = some WsReadyState.open →
      (onMessageEvents st msgs).forwarded = st.forwarded ++ msgs.filter notPong := by
  induction msgs with
  | nil =>
      intro st _ _
      simp [onMessageEvents]
  | cons m rest ih =>
      intro st hm hw
      have hm' : (onMessageEvent st m).mounted = true :=
        (onMessageEvent_mounted st m).trans hm
      have hw' : (onMessageEvent st m).ws = some WsReadyState.open :=
        (onMessageEvent_ws st m).trans hw
      have hstep : onMessageEvents st (m :: rest) =
          onMessageEvents (onMessageEvent st m) rest := rfl
      rw [hstep, ih _ hm' hw', onMessageEvent_forwarded st m hm hw, List.filter_cons]
      by_cases hp : notPong m
      · simp [hp]
      · simp [hp]

/-- Claim C4: while the manager is mounted and the transport OPEN, a `pong`
is never forwarded to `onMessage` — the forwarded log after any inbound
sequence is the prior log plus exactly the non-pong messages, in order;
each pong clears the pending ping-timeout; and a sequence of 100 pongs
followed by one `full_update` grows the forwarded log by exactly one
message. -/
theorem pong_never_forwarded (st : ManagerState) (msgs : List WebSocketMessage)
    (hm : st.mounted = true) (hw : st.ws = some WsReadyState.open) :
    (onMessageEvents st msgs).forwarded = st.forwarded ++ msgs.filter notPong ∧
    (∀ t : Nat, (onMessageEvent st (WebSocketMessage.pong t)).heartbeatTimeout = false) ∧
    (onMessageEvents st
        (List.replicate 100 (WebSocketMessage.pong 0) ++
          [WebSocketMessage.full_update
            { summary := none, realtime := none, timeseries_point := none }])).forwarded.length =
      st.forwarded.length + 1 := by
  refine ⟨onMessageEvents_forwarded msgs st hm hw, ?_, ?_⟩
  · intro t
    simp [onMessageEvent, hm, hw]
  · rw [onMessageEvents_forwarded _ st hm hw, List.length_append]
    norm_num
    decide

/-- Witness for C4: the 100-pong scenario run from a concrete open state. -/
theorem pong_never_forwarded_witness :
    ({ initialManagerState with ws := some WsReadyState.open } : ManagerState).mounted = true ∧
    (onMessageEvents { initialManagerState with ws := some WsReadyState.open }
        (List.replicate 100 (WebSocketMessage.pong 0) ++
          [WebSocketMessage.full_update
            { summary := none, realtime := none, timeseries_point := none }])).forwarded.length =
      ({ initialManagerState with ws := some WsReadyState.open } : ManagerState).forwarded.length + 1 :=
  ⟨rfl, (pong_never_forwarded _ [] rfl rfl).2.2⟩

/-! ## Claim C3: exhaustion after the retry budget -/

/-- Claim C3: in the run where the hook mounts, connects, and every
connection attempt fails, the manager keeps scheduling automatic reconnects
while its attempt counter is below `MAX_RECONNECT_ATTEMPTS` (after `n ≤ 10`
failures a fresh attempt is in flight and the counter reads `n`, so the
counted reconnect attempts 1..10 all get scheduled); at the failure of the
10th counted attempt — the transport failure with the counter at 10 — the
max-retries-exceeded callback fires, no reconnect is scheduled, and from then
on the state is frozen: the callback count stays exactly 1 and the transport
stays CLOSED, until the manual `resetConnection`, which puts a fresh attempt
in flight with the counter back at 0. -/
theorem exhaustion_after_max_attempts :
    (∀ n, n ≤ MAX_RECONNECT_ATTEMPTS →
      (failRun n).ws = some WsReadyState.connecting ∧
      (failRun n).reconnectAttempts = n ∧
      (failRun n).exhaustedCount = 0 ∧
      (failRun n).reconnectTimer = false) ∧
    ((failRun 11).exhaustedCount = 1 ∧
      (failRun 11).ws = some WsReadyState.closed ∧
      (failRun 11).reconnectTimer = false) ∧
    (∀ n, 11 ≤ n → failRun n = failRun 11) ∧
    ((resetConnection (failRun 11)).ws = some WsReadyState.connecting ∧
      (resetConnection (failRun 11)).reconnectAttempts = 0) := by
  refine ⟨by decide, by decide, ?_, by decide⟩
  have hfix : attemptFail (failRun 11) = failRun 11 := by decide
  intro n hn
  obtain ⟨k, rfl⟩ : ∃ k, n = k + 11 := ⟨n - 11, by omega⟩
  show attemptFail^[k + 11] (connect initialManagerState) = failRun 11
  rw [Function.iterate_add_apply]
  exact Function.iterate_fixed hfix k

/-- Witness for C3: the bounded clauses applied at failures 5 and 13. -/
theorem exhaustion_after_max_attempts_witness :
    (failRun 5).reconnectAttempts = 5 ∧ failRun 13 = failRun 11 :=
  ⟨(exhaustion_after_max_attempts.1 5 (by norm_num [MAX_RECONNECT_ATTEMPTS])).2.1,
   exhaustion_after_max_attempts.2.2.1 13 (by norm_num)⟩

/-! ## Helper lemmas: the `full_update` branch projections -/

theorem full_update_realtimeData (st : DashboardState) (u : FullUpdateData) :
    (handleWebSocketMessage st (.full_update u)).realtimeData =
      match u.realtime with
      | some r => spreadRecord st.realtimeData r
      | none => st.realtimeData := by
  obtain ⟨s, r, t⟩ := u
  cases s <;> cases r <;> cases t <;> rfl

theorem full_update_timeseriesData (st : DashboardState) (u : FullUpdateData) :
    (handleWebSocketMessage st (.full_update u)).timeseriesData =
      match u.timeseries_point with
      | some ts => applyTimeseriesBatch st.timeseriesData ts
      | none => st.timeseriesData := by
  obtain ⟨s, r, t⟩ := u
  cases s <;> cases r <;> cases t <;> rfl

/-! ## Helper lemmas: `spreadRecord` -/

theorem spreadRecord_of_not_mem (entries : List (String × α)) (k : String) :
    ∀ prev : String → Option α, (∀ e ∈ entries, e.1 ≠ k) →
      spreadRecord prev entries k = prev k := by
  induction entries with
  | nil =>
      intro prev _
      rfl
  | cons e rest ih =>
      intro prev h
      have hstep : spreadRecord prev (e :: rest) =
          spreadRecord (fun j => if j = e.1 then some e.2 else prev j) rest := rfl
      rw [hstep, ih _ (fun x hx => h x (List.mem_cons_of_mem e hx))]
      show (if k = e.1 then some e.2 else prev k) = prev k
      rw [if_neg (fun hk => h e (List.mem_cons_self e rest) hk.symm)]

theorem spreadRecord_lookup (entries : List (String × α)) (k : String) :
    ∀ prev : String → Option α, (entries.map Prod.fst).Nodup →
      spreadRecord prev entries k =
        match entries.find? (fun e => e.1 == k) with
        | some e => some e.2
        | none => prev k := by
  induction entries with
  | nil =>
      intro prev _
      rfl
  | cons e rest ih =>
      intro prev hnd
      have hstep : spreadRecord prev (e :: rest) =
          spreadRecord (fun j => if j = e.1 then some e.2 else prev j) rest := rfl
      have hnm : e.1 ∉ rest.map Prod.fst := (List.nodup_cons.mp hnd).1
      have hnd' : (rest.map Prod.fst).Nodup := (List.nodup_cons.mp hnd).2
      by_cases hk : e.1 = k
      · subst hk
        rw [hstep, spreadRecord_of_not_mem rest e.1 _
          (fun x hx hxk => hnm (hxk ▸ List.mem_map_of_mem Prod.fst hx))]
        rw [List.find?_cons_of_pos _ (by simp)]
        show (if e.1 = e.1 then some e.2 else prev e.1) = some e.2
        rw [if_pos rfl]
      · rw [hstep, ih _ hnd', List.find?_cons_of_neg _ (by simp [hk])]
        cases hfind : rest.find? (fun x => x.1 == k) with
        | some y => rfl
        | none =>
            show (if k = e.1 then some e.2 else prev k) = prev k
            rw [if_neg (fun h => hk h.symm)]

/-! ## Claim C5: snapshot partial merge -/

/-- Claim C5: a `full_update` whose snapshot batch has (pairwise distinct)
keys overwrites exactly the devices present in the batch — a device in the
batch ends up with the batch value, every other device keeps its prior
snapshot — and in particular, from prior snapshots `A ↦ a1, B ↦ b1`, a batch
carrying only `A ↦ a2` yields `A ↦ a2` with `B ↦ b1` unchanged. -/
theorem full_update_snapshot_merge (st : DashboardState) (u : FullUpdateData)
    (entries : List (String × RealtimeData)) (k : String)
    (hr : u.realtime = some entries)
    (hnd : (entries.map Prod.fst).Nodup) :
    ((handleWebSocketMessage st (.full_update u)).realtimeData k =
      match entries.find? (fun e => e.1 == k) with
      | some e => some e.2
      | none => st.realtimeData k) ∧
    (∀ (a1 b1 a2 : RealtimeData) (st2 : DashboardState),
      st2.realtimeData =
        (fun j => if j = devA then some a1 else if j = devB then some b1 else none) →
      (handleWebSocketMessage st2 (.full_update
          { summary := none, realtime := some [(devA, a2)],
            timeseries_point := none })).realtimeData devA = some a2 ∧
      (handleWebSocketMessage st2 (.full_update
          { summary := none, realtime := some [(devA, a2)],
            timeseries_point := none })).realtimeData devB = some b1) := by
  constructor
  · rw [full_update_realtimeData, hr]
    show spreadRecord st.realtimeData entries k = _
    have h := spreadRecord_lookup entries k st.realtimeData hnd
    cases hfind : entries.find? (fun e => e.1 == k) with
    | some e =>
        rw [hfind] at h
        exact h
    | none =>
        rw [hfind] at h
        exact h
  · intro a1 b1 a2 st2 hst
    have hfu : (handleWebSocketMessage st2 (.full_update
        { summary := none, realtime := some [(devA, a2)],
          timeseries_point := none })).realtimeData =
        spreadRecord st2.realtimeData [(devA, a2)] := by
      rw [full_update_realtimeData]
    have hspread : ∀ j, spreadRecord st2.realtimeData [(devA, a2)] j =
        if j = devA then some a2 else st2.realtimeData j := fun j => rfl
    constructor
    · rw [hfu, hspread devA, if_pos rfl]
    · rw [hfu, hspread devB, if_neg (by decide), hst]
      show (if devB = devA then some a1
        else if devB = devB then some b1 else none) = some b1
      rw [if_neg (by decide), if_pos rfl]

/-- Witness for C5: one-entry batch applied to the empty table. -/
theorem full_update_snapshot_merge_witness :
    (([(devA, mkRD 2)].map Prod.fst).Nodup) ∧
    (handleWebSocketMessage initialDashboardState (.full_update
        { summary := none, realtime := some [(devA, mkRD 2)],
          timeseries_point := none })).realtimeData devA =
      match [(devA, mkRD 2)].find? (fun e => e.1 == devA) with
      | some e => some e.2
      | none => initialDashboardState.realtimeData devA :=
  ⟨by decide,
   (full_update_snapshot_merge initialDashboardState _ [(devA, mkRD 2)] devA rfl
     (by decide)).1⟩

/-! ## Helper lemmas: single-point messages -/

theorem handle_singlePointMsg (st : DashboardState) (d k : String)
    (p : TimeseriesPoint) :
    (handleWebSocketMessage st (singlePointMsg d p)).timeseriesData k =
      if k = d then appendPoint (st.timeseriesData d) p
      else st.timeseriesData k := by
  have h := full_update_timeseriesData st
    { summary := none, realtime := none, timeseries_point := some [(d, p)] }
  rw [singlePointMsg, h]
  rfl

/-! ## Claim C6: duplicate-timestamp dedup -/

/-- Claim C6: re-delivering the same point is a no-op — for every stored
series, applying `appendPoint` with the same point twice equals applying it
once, because a point whose timestamp equals the last stored point's
timestamp is dropped, not appended; consequently two consecutive
`full_update` messages carrying the same point `p` for a device whose series
holds no prior point (in particular none of timestamp `p.timestamp`) leave a
series of length 1, namely `[p]`, not 2. -/
theorem series_dedup_same_timestamp (st : DashboardState) (d : String)
    (p : TimeseriesPoint) (hempty : st.timeseriesData d = []) :
    (∀ s : List TimeseriesPoint, appendPoint (appendPoint s p) p = appendPoint s p) ∧
    (handleWebSocketMessage (handleWebSocketMessage st (singlePointMsg d p))
        (singlePointMsg d p)).timeseriesData d = [p] ∧
    ((handleWebSocketMessage (handleWebSocketMessage st (singlePointMsg d p))
        (singlePointMsg d p)).timeseriesData d).length = 1 := by
  have hone : (handleWebSocketMessage st (singlePointMsg d p)).timeseriesData d = [p] := by
    rw [handle_singlePointMsg, if_pos rfl, hempty, appendPoint_of_empty]
  have htwo : appendPoint [p] p = [p] := by
    have h2 := appendPoint_idem [] p
    rw [appendPoint_of_empty] at h2
    exact h2
  have key : (handleWebSocketMessage (handleWebSocketMessage st (singlePointMsg d p))
      (singlePointMsg d p)).timeseriesData d = [p] := by
    rw [handle_singlePointMsg, if_pos rfl, hone, htwo]
  refine ⟨fun s => appendPoint_idem s p, key, ?_⟩
  rw [key]
  rfl

/-- Witness for C6: the same concrete point delivered twice for device `A`
starting from the empty table. -/
theorem series_dedup_same_timestamp_witness :
    initialDashboardState.timeseriesData devA = [] ∧
    (handleWebSocketMessage
        (handleWebSocketMessage initialDashboardState (singlePointMsg devA (mkPt 7)))
        (singlePointMsg devA (mkPt 7))).timeseriesData devA = [mkPt 7] :=
  ⟨rfl, (series_dedup_same_timestamp initialDashboardState devA (mkPt 7) rfl).2.1⟩

/-! ## Claim C7: series cap and eviction -/

theorem handleMessages_single_device (d : String) (pts : List TimeseriesPoint) :
    ∀ (st : DashboardState) (k : String),
      (handleMessages st (pts.map (fun p => singlePointMsg d p))).timeseriesData k =
        if k = d then pts.foldl appendPoint (st.timeseriesData d)
        else st.timeseriesData k := by
  induction pts with
  | nil =>
      intro st k
      by_cases hk : k = d
      · subst hk
        rw [if_pos rfl]
        rfl
      · rw [if_neg hk]
        rfl
  | cons p rest ih =>
      intro st k
      have hstep : handleMessages st ((p :: rest).map (fun q => singlePointMsg d q)) =
          handleMessages (handleWebSocketMessage st (singlePointMsg d p))
            (rest.map (fun q => singlePointMsg d q)) := rfl
      rw [hstep, ih]
      by_cases hk : k = d
      · subst hk
        rw [if_pos rfl, if_pos rfl, handle_singlePointMsg, if_pos rfl, List.foldl_cons]
      · rw [if_neg hk, if_neg hk, handle_singlePointMsg, if_neg hk]

theorem append_right_suffix {l1 l2 t : List α} (h : l1 <:+ l2) :
    l1 ++ t <:+ l2 ++ t := by
  obtain ⟨u, hu⟩ := h
  exact ⟨u, by rw [← hu, List.append_assoc]⟩

set_option maxRecDepth 4000 in
theorem foldl_appendPoint (pts : List TimeseriesPoint) :
    ∀ s : List TimeseriesPoint, s.length ≤ MAX_TIMESERIES_POINTS →
      List.Chain' (fun a b => a.timestamp ≠ b.timestamp) (s ++ pts) →
      pts.foldl appendPoint s = sliceLast MAX_TIMESERIES_POINTS (s ++ pts) := by
  induction pts with
  | nil =>
      intro s hs _
      rw [List.append_nil, List.foldl_nil, sliceLast_of_length_le _ _ hs]
  | cons p rest ih =>
      intro s hs hch
      have hch1 : List.Chain' (fun a b => a.timestamp ≠ b.timestamp)
          ((s ++ [p]) ++ rest) := by
        rw [List.append_assoc, List.singleton_append]
        exact hch
      have happ : appendPoint s p = sliceLast MAX_TIMESERIES_POINTS (s ++ [p]) := by
        cases hL : s.getLast? with
        | none => exact appendPoint_of_getLast?_none hL
        | some lp =>
            have hne : lp.timestamp ≠ p.timestamp :=
              (List.chain'_append.mp hch).2.2 lp hL p rfl
            rw [appendPoint_of_getLast?_some hL, if_neg hne]
      have hs' : (sliceLast MAX_TIMESERIES_POINTS (s ++ [p])).length ≤
          MAX_TIMESERIES_POINTS := by
        rw [sliceLast_length]
        exact min_le_right _ _
      have hsuffix : sliceLast MAX_TIMESERIES_POINTS (s ++ [p]) ++ rest <:+
          (s ++ [p]) ++ rest :=
        append_right_suffix (sliceLast_suffix MAX_TIMESERIES_POINTS (s ++ [p]))
      have hch' := List.Chain'.suffix hch1 hsuffix
      rw [List.foldl_cons, happ, ih _ hs' hch', sliceLast_absorb]
      rw [List.append_assoc, List.singleton_append]

/-- Claim C7: delivering 500 single-point `full_update` messages with
strictly increasing timestamps to one device leaves a series of exactly 450
points, namely the 450 most recently appended points in their original
(oldest-first) order — the first 50 points have been evicted from the
front. -/
theorem series_cap_eviction (pts : List TimeseriesPoint)
    (hlen : pts.length = 500)
    (hmono : List.Chain' (fun a b => a.timestamp < b.timestamp) pts) :
    (handleMessages initialDashboardState
        (pts.map (fun p => singlePointMsg devA p))).timeseriesData devA =
      pts.drop 50 ∧
    ((handleMessages initialDashboardState
        (pts.map (fun p => singlePointMsg devA p))).timeseriesData devA).length = 450 := by
  have hne : List.Chain' (fun a b => a.timestamp ≠ b.timestamp) pts :=
    List.Chain'.imp (fun a b h => Nat.ne_of_lt h) hmono
  have hfold := foldl_appendPoint pts [] (Nat.zero_le _) (by simpa using hne)
  have hkey : (handleMessages initialDashboardState
      (pts.map (fun p => singlePointMsg devA p))).timeseriesData devA = pts.drop 50 := by
    rw [handleMessages_single_device devA pts initialDashboardState devA, if_pos rfl]
    show pts.foldl appendPoint ([] : List TimeseriesPoint) = pts.drop 50
    rw [hfold, List.nil_append, sliceLast, hlen]
    norm_num [MAX_TIMESERIES_POINTS]
  exact ⟨hkey, by rw [hkey, List.length_drop, hlen]⟩

set_option maxRecDepth 4000 in
/-- Witness for C7: the 500 points with timestamps 0..499. -/
theorem series_cap_eviction_witness :
    ((List.range 500).map mkPt).length = 500 ∧
    ((handleMessages initialDashboardState
        (((List.range 500).map mkPt).map (fun p => singlePointMsg devA p))).timeseriesData
        devA).length = 450 :=
  ⟨by simp,
   (series_cap_eviction ((List.range 500).map mkPt) (by simp)
     (by
       rw [List.chain'_map]
       exact (List.pairwise_lt_range 500).chain')).2⟩

/-! ## Claim C8: initial_timeseries replacement -/

/-- Counterexample to C8 as stated: the `initial_timeseries` branch is
guarded by the JS truthiness check `if (data.meter_name && data.data)`, so
for the device whose name is the empty string (a falsy value) the message is
ignored instead of replacing the series.  A point for that device can still
be seeded through the `timeseries_point` path, so the discrepancy is
observable: after seeding `[mkPt 0]`, an `initial_timeseries` carrying
`[mkPt 1]` leaves the series at `[mkPt 0]`, not the message's array. -/
theorem initial_timeseries_empty_name_ignored :
    (handleWebSocketMessage
        (handleWebSocketMessage initialDashboardState
          (singlePointMsg emptyName (mkPt 0)))
        (.initial_timeseries emptyName [mkPt 1])).timeseriesData emptyName =
      [mkPt 0] ∧
    [mkPt 0] ≠ ([mkPt 1] : List TimeseriesPoint) := by
  exact ⟨by decide, by decide⟩

/-- Claim C8 (amended): for every prior state and every `initial_timeseries`
message for a device `A` whose name is nonempty, applying the message
replaces device `A`'s entire series with exactly the message's data array and
leaves every other device's series unchanged.  (A message whose
`meter_name` is the empty string — falsy in JS — is ignored.) -/
theorem initial_timeseries_replace (st : DashboardState) (A : String)
    (data : List TimeseriesPoint) (hA : A ≠ emptyName) :
    (handleWebSocketMessage st (.initial_timeseries A data)).timeseriesData A =
      data ∧
    (∀ k, k ≠ A →
      (handleWebSocketMessage st (.initial_timeseries A data)).timeseriesData k =
        st.timeseriesData k) := by
  have hne : ¬(A = "") := hA
  have hmain : handleWebSocketMessage st (.initial_timeseries A data) =
      { st with timeseriesData :=
          fun k => if k = A then data else st.timeseriesData k } := by
    show (if A = "" then st
      else { st with timeseriesData :=
          fun k => if k = A then data else st.timeseriesData k }) = _
    rw [if_neg hne]
  constructor
  · rw [hmain]
    show (if A = A then data else st.timeseriesData A) = data
    rw [if_pos rfl]
  · intro k hk
    rw [hmain]
    show (if k = A then data else st.timeseriesData k) = st.timeseriesData k
    rw [if_neg hk]

/-- Witness for C8 (amended): a two-point array installed for device `A`. -/
theorem initial_timeseries_replace_witness :
    devA ≠ emptyName ∧
    (handleWebSocketMessage initialDashboardState
        (.initial_timeseries devA [mkPt 1, mkPt 2])).timeseriesData devA =
      [mkPt 1, mkPt 2] :=
  ⟨by decide,
   (initial_timeseries_replace initialDashboardState devA [mkPt 1, mkPt 2]
     (by decide)).1⟩

/-! ## Claim C1: the per-series invariant -/

/-- The per-series invariant stated in the design document: strictly
increasing timestamps and at most `MAX_TIMESERIES_POINTS` points. -/
def SeriesInv (l : List TimeseriesPoint) : Prop :=
  List.Chain' (fun a b => a.timestamp < b.timestamp) l ∧
  l.length ≤ MAX_TIMESERIES_POINTS

/-- Every device's series satisfies `SeriesInv`. -/
def DashInv (st : DashboardState) : Prop :=
  ∀ d, SeriesInv (st.timeseriesData d)

/-- Well-formedness of one inbound message relative to the state it reaches:
a `timeseries_point` batch has pairwise-distinct device keys (as the entries
of a JS object always do) and each carried point's timestamp is at least the
receiving device's last stored timestamp; an `initial_timeseries` data array
is itself strictly increasing with at most `MAX_TIMESERIES_POINTS` points.
This is the hypothesis under which the reducer preserves `SeriesInv` — the
code does not enforce it. -/
def WellFormedMsg (st : DashboardState) : WebSocketMessage → Prop
  | .full_update u =>
      match u.timeseries_point with
      | some entries =>
          (entries.map Prod.fst).Nodup ∧
          ∀ e ∈ entries, ∀ q ∈ (st.timeseriesData e.1).getLast?,
            q.timestamp ≤ e.2.timestamp
      | none => True
  | .initial_timeseries _ data =>
      List.Chain' (fun a b => a.timestamp < b.timestamp) data ∧
      data.length ≤ MAX_TIMESERIES_POINTS
  | .pong _ => True

/-- States reachable from the empty tables by well-formed inbound messages. -/
inductive ReachableWF : DashboardState → Prop where
  | init : ReachableWF initialDashboardState
  | step (st : DashboardState) (m : WebSocketMessage) :
      ReachableWF st → WellFormedMsg st m →
      ReachableWF (handleWebSocketMessage st m)

theorem appendPoint_seriesInv (s : List TimeseriesPoint) (p : TimeseriesPoint)
    (hinv : SeriesInv s)
    (hts : ∀ q ∈ s.getLast?, q.timestamp ≤ p.timestamp) :
    SeriesInv (appendPoint s p) := by
  obtain ⟨hch, hlen⟩ := hinv
  cases hL : s.getLast? with
  | none =>
      have hs : s = [] := List.getLast?_eq_none_iff.mp hL
      subst hs
      rw [appendPoint_of_empty]
      exact ⟨List.chain'_singleton p, by norm_num [MAX_TIMESERIES_POINTS]⟩
  | some lp =>
      by_cases heq : lp.timestamp = p.timestamp
      · rw [appendPoint_of_getLast?_some hL, if_pos heq]
        exact ⟨hch, hlen⟩
      · rw [appendPoint_of_getLast?_some hL, if_neg heq]
        have hlt : lp.timestamp < p.timestamp := lt_of_le_of_ne (hts lp hL) heq
        have hch2 : List.Chain' (fun a b => a.timestamp < b.timestamp) (s ++ [p]) := by
          rw [List.chain'_append]
          refine ⟨hch, List.chain'_singleton p, ?_⟩
          intro x hx y hy
          rw [hL, Option.mem_some_iff] at hx
          simp only [List.head?_cons, Option.mem_some_iff] at hy
          subst hx
          subst hy
          exact hlt
        refine ⟨List.Chain'.suffix hch2 (sliceLast_suffix _ _), ?_⟩
        rw [sliceLast_length]
        exact min_le_right _ _

theorem applyTimeseriesBatch_inv (entries : List (String × TimeseriesPoint)) :
    ∀ tbl : String → List TimeseriesPoint,
      (∀ d, SeriesInv (tbl d)) →
      (entries.map Prod.fst).Nodup →
      (∀ e ∈ entries, ∀ q ∈ (tbl e.1).getLast?, q.timestamp ≤ e.2.timestamp) →
      ∀ d, SeriesInv (applyTimeseriesBatch tbl entries d) := by
  induction entries with
  | nil =>
      intro tbl hinv _ _ d
      exact hinv d
  | cons e rest ih =>
      intro tbl hinv hnd hts d
      have hstep : applyTimeseriesBatch tbl (e :: rest) =
          applyTimeseriesBatch
            (fun k => if k = e.1 then appendPoint (tbl e.1) e.2 else tbl k)
            rest := rfl
      rw [hstep]
      have hnm : e.1 ∉ rest.map Prod.fst := (List.nodup_cons.mp hnd).1
      apply ih
      · intro j
        show SeriesInv (if j = e.1 then appendPoint (tbl e.1) e.2 else tbl j)
        by_cases hj : j = e.1
        · rw [if_pos hj]
          exact appendPoint_seriesInv _ _ (hinv e.1)
            (hts e (List.mem_cons_self e rest))
        · rw [if_neg hj]
          exact hinv j
      · exact (List.nodup_cons.mp hnd).2
      · intro x hx q hq
        have hxe : x.1 ≠ e.1 :=
          fun hh => hnm (hh ▸ List.mem_map_of_mem Prod.fst hx)
        have htbl : (if x.1 = e.1 then appendPoint (tbl e.1) e.2 else tbl x.1) =
            tbl x.1 := if_neg hxe
        rw [htbl] at hq
        exact hts x (List.mem_cons_of_mem e hx) q hq

theorem handle_preserves_inv (st : DashboardState) (m : WebSocketMessage)
    (hinv : DashInv st) (hwf : WellFormedMsg st m) :
    DashInv (handleWebSocketMessage st m) := by
  cases m with
  | full_update u =>
      intro d
      have hts := full_update_timeseriesData st u
      cases hu : u.timeseries_point with
      | none =>
          rw [hts, hu]
          exact hinv d
      | some entries =>
          rw [hts, hu]
          show SeriesInv (applyTimeseriesBatch st.timeseriesData entries d)
          simp only [WellFormedMsg] at hwf
          rw [hu] at hwf
          exact applyTimeseriesBatch_inv entries st.timeseriesData hinv hwf.1 hwf.2 d
  | initial_timeseries meter_name data =>
      simp only [WellFormedMsg] at hwf
      by_cases hn : meter_name = ""
      · have hm : handleWebSocketMessage st (.initial_timeseries meter_name data) = st := by
          show (if meter_name = "" then st
            else { st with timeseriesData :=
                fun k => if k = meter_name then data else st.timeseriesData k }) = st
          rw [if_pos hn]
        rw [hm]
        exact hinv
      · have hm : handleWebSocketMessage st (.initial_timeseries meter_name data) =
            { st with timeseriesData :=
                fun k => if k = meter_name then data else st.timeseriesData k } := by
          show (if meter_name = "" then st
            else { st with timeseriesData :=
                fun k => if k = meter_name then data else st.timeseriesData k }) = _
          rw [if_neg hn]
        rw [hm]
        intro d
        show SeriesInv (if d = meter_name then data else st.timeseriesData d)
        by_cases hd : d = meter_name
        · rw [if_pos hd]
          exact hwf
        · rw [if_neg hd]
          exact hinv d
  | pong t =>
      exact hinv

/-- Counterexample to C1 as stated: the dedup check compares only for
*equality* with the last stored timestamp, so a later `full_update` carrying
an older (smaller) timestamp is appended out of order — from the empty
tables, the unrestricted message sequence delivering timestamp 5 and then
timestamp 3 for device `A` reaches a state whose series is `[mkPt 5, mkPt 3]`,
which is not strictly increasing. -/
theorem series_invariant_counterexample :
    (handleWebSocketMessage
        (handleWebSocketMessage initialDashboardState (singlePointMsg devA (mkPt 5)))
        (singlePointMsg devA (mkPt 3))).timeseriesData devA = [mkPt 5, mkPt 3] ∧
    ¬ List.Chain' (fun a b => a.timestamp < b.timestamp) [mkPt 5, mkPt 3] := by
  refine ⟨by decide, fun hch => ?_⟩
  rw [List.chain'_cons] at hch
  exact absurd hch.1 (by decide)

/-- Claim C1 (amended): every state reachable from the empty tables by
*well-formed* inbound messages (each `timeseries_point` entry at least the
receiving device's last stored timestamp, with distinct batch keys; each
`initial_timeseries` array itself strictly increasing with at most 450
points) has, for every device, a series with strictly increasing timestamps
and length at most 450; both series-touching operations preserve the
invariant under these conditions, the length bound holding for the
`timeseries_point` branch unconditionally
(`appendPoint_length_le`). -/
theorem series_invariant_reachable (st : DashboardState) (h : ReachableWF st) :
    DashInv st := by
  induction h with
  | init =>
      intro d
      exact ⟨List.chain'_nil, Nat.zero_le _⟩
  | step st' m hr hwf ih =>
      exact handle_preserves_inv st' m ih hwf

/-- Witness for C1 (amended): the empty initial state is reachable and
satisfies the invariant. -/
theorem series_invariant_reachable_witness : DashInv initialDashboardState :=
  series_invariant_reachable initialDashboardState ReachableWF.init
